/-
  Verification development for the sqld HTTP-to-SQL gateway (Go).

  The definitions below are a shallow embedding of the request-to-SQL
  translation layer of the repository: the request decomposer
  (`parseRequest`), the squirrel-backed query builders
  (`buildSelectQuery`, `buildUpdateQuery`, `buildDeleteQuery`,
  `createSingle`), the raw-SQL classifier (`detectQueryType`) and
  executor (`raw`), the create handler (`create`), the router
  (`HandleQuery`), and the delimited-text serializer
  (`quoteMinimal` / `writeResponseCsv`).

  Go standard-library behaviour used by that code (strings.Split,
  strings.TrimSpace, strings.TrimPrefix, strings.ToUpper on ASCII,
  strconv.Atoi, strconv.Quote on printable text, uint64 conversion)
  is modelled by the `go*` helpers; the squirrel SQL generation
  (github.com/Masterminds/squirrel v1.5.4) is modelled by the
  `SelectQuery`/`UpdateQuery`/`DeleteQuery`/`InsertQuery` structures
  and their `toSql` renderings, including the `$n` placeholder
  rewriting that the postgres driver configuration installs.
-/
import Mathlib

namespace Sqld

/-! ### Go standard-library string helpers -/

/-- The white-space set of Go's `unicode.IsSpace` (the Unicode
`White_Space` property). -/
def goIsSpace (c : Char) : Bool :=
  c.toNat = 0x20 || c.toNat = 0x9 || c.toNat = 0xa || c.toNat = 0xb ||
  c.toNat = 0xc || c.toNat = 0xd || c.toNat = 0x85 || c.toNat = 0xa0 ||
  c.toNat = 0x1680 || (0x2000 <= c.toNat && c.toNat <= 0x200a) ||
  c.toNat = 0x2028 || c.toNat = 0x2029 || c.toNat = 0x202f ||
  c.toNat = 0x205f || c.toNat = 0x3000

/-- Go `strings.TrimSpace`: drop leading and trailing white space. -/
def goTrimSpace (s : String) : String :=
  ⟨(s.data.dropWhile goIsSpace).reverse.dropWhile goIsSpace |>.reverse⟩

/-- Go `strings.Split` with a one-character separator (always returns at
least one chunk; an empty input yields `[""]`). -/
def goSplitChar (sep : Char) : List Char → List (List Char)
  | [] => [[]]
  | c :: rest =>
    match goSplitChar sep rest with
    | [] => [[]]  -- unreachable: the result is always non-empty
    | r :: rs => if c = sep then [] :: r :: rs else (c :: r) :: rs

/-- Go `strings.TrimPrefix`: drop `pre` if `s` starts with it, else `s`. -/
def goTrimPrefix (s pre : String) : String :=
  if pre.data.isPrefixOf s.data then ⟨s.data.drop pre.data.length⟩ else s

/-- Go `strings.ToUpper`, modelled on the ASCII range (the repository only
compares the result with ASCII keywords). -/
def goToUpper (s : String) : String := ⟨s.data.map Char.toUpper⟩

/-- Go `strings.HasPrefix`. -/
def goHasPrefix (s pre : String) : Bool := pre.data.isPrefixOf s.data

/-- Go `strings.ContainsAny(s, chars)`. -/
def goContainsAny (s chars : String) : Bool :=
  s.data.any (fun c => chars.data.contains c)

/-- Sign handling of Go `strconv.Atoi`: an optional leading `-` or `+`
followed by the digit run. -/
def goAtoiSign : List Char → Bool × List Char
  | '-' :: rest => (true, rest)
  | '+' :: rest => (false, rest)
  | other => (false, other)

/-- Go `strconv.Atoi`: optional sign, one or more ASCII digits, and the
value must fit in a signed 64-bit int; everything else is an error
(`none`). -/
def goAtoi (s : String) : Option Int :=
  let p := goAtoiSign s.data
  let digits := p.2
  if digits.isEmpty || !digits.all Char.isDigit then none
  else
    let mag : Nat := digits.foldl (fun acc c => acc * 10 + (c.toNat - '0'.toNat)) 0
    let v : Int := if p.1 then -(mag : Int) else (mag : Int)
    if -(2 ^ 63) ≤ v ∧ v < 2 ^ 63 then some v else none

/-- Go conversion `uint64(n)` of a (64-bit, in-range) signed integer:
two's-complement reinterpretation, i.e. `n mod 2^64`. -/
def goUint64 (n : Int) : Nat := (n % (2 ^ 64 : Int)).toNat

/-! ### Raw query classification (`detectQueryType`, sqld source) -/

/-- Function `detectQueryType` from the source: take the chunk before the first
space character (`strings.Split(query, " ")[0]`), trim surrounding white
space, uppercase, and compare with the fixed keyword sets. -/
def detectQueryType (query : String) : String :=
  let firstWord : String := ⟨query.data.takeWhile (· ≠ ' ')⟩
  let action := goToUpper (goTrimSpace firstWord)
  if action = "SELECT" || action = "SHOW" || action = "DESCRIBE" ||
     action = "EXPLAIN" || action = "DESC" || action = "PRAGMA" then
    "read"
  else if action = "INSERT" || action = "UPDATE" || action = "DELETE" ||
          action = "CREATE" || action = "DROP" || action = "ALTER" then
    "write"
  else
    "unknown"

/-- The keyword the classifier actually inspects for a query string. -/
def detectAction (query : String) : String :=
  goToUpper (goTrimSpace ⟨query.data.takeWhile (· ≠ ' ')⟩)

/-! ### JSON values and SQL arguments

`encoding/json.Unmarshal` into `interface{}` produces nested maps,
slices, strings, float64 numbers, bools and nils; objects are modelled
as association lists in Go map iteration order.  Numbers are carried as
their decimal rendering (no claim inspects numeric values).  The bound
arguments handed to the database driver are modelled by the same type,
with query-string filter values injected as `Json.str`. -/
inductive Json where
  | str (s : String)
  | num (render : String)
  | bool (b : Bool)
  | null
  | obj (fields : List (String × Json))
  | arr (elems : List Json)

/-! ### The squirrel predicate model

The builders only ever construct `squirrel.Eq` conditions with a single
key, whose value is either one string (the path row id) or the slice of
query-string values for that key.  squirrel renders these as
`key = ?`, `key IN (?,...)`, or the portable false literal `(1=0)` for
an empty slice; the key is written into the SQL text verbatim. -/
inductive Pred where
  | eqStr (col : String) (v : String)
  | inList (col : String) (vs : List String)
  deriving DecidableEq, Repr

/-- The column identifier a predicate mentions. -/
def Pred.col : Pred → String
  | .eqStr c _ => c
  | .inList c _ => c

/-- Model of `squirrel.Placeholders n`: `n` question marks joined by commas. -/
def placeholders (n : Nat) : String :=
  String.intercalate "," (List.replicate n "?")

/-- Render one `squirrel.Eq` condition (question-mark form). -/
def Pred.render : Pred → String
  | .eqStr c _ => c ++ " = ?"
  | .inList _ [] => "(1=0)"
  | .inList c vs => c ++ " IN (" ++ placeholders vs.length ++ ")"

/-- The bound arguments a predicate contributes, in order. -/
def Pred.args : Pred → List Json
  | .eqStr _ v => [.str v]
  | .inList _ vs => vs.map .str

/-! ### Placeholder format

`InitMySQL`/`InitSQLite` configure squirrel with `squirrel.Question`
(no rewriting); `InitPostgres` configures `squirrel.Dollar`, which
rewrites each `?` into `$1`, `$2`, … (with `??` escaping a literal
`?`), scanning the entire SQL string. -/
def dollarAux : List Char → Nat → List Char
  | [], _ => []
  | '?' :: '?' :: rest, i => '?' :: dollarAux rest i
  | '?' :: rest, i => '$' :: (Nat.repr (i + 1)).data ++ dollarAux rest (i + 1)
  | c :: rest, i => c :: dollarAux rest i

/-- Apply the dialect's placeholder format to a question-mark SQL string. -/
def formatPlaceholders (dbtype sql : String) : String :=
  if dbtype = "postgres" then ⟨dollarAux sql.data 0⟩ else sql

/-! ### Identifier quoting used by `createSingle` and `buildUpdateQuery`

The source wraps INSERT column names and UPDATE SET keys itself:
backticks for MySQL, double quotes otherwise
(`fmt.Sprintf` in `createSingle` / `buildUpdateQuery`). -/
def quoteIdent (dbtype ident : String) : String :=
  if dbtype = "mysql" then "`" ++ ident ++ "`" else "\"" ++ ident ++ "\""

/-! ### Request decomposition (`parseRequest`) -/

/-- Query-string arguments as produced by `r.URL.Query()`: an
association of keys to their (non-empty, in practice) value lists, in
Go map iteration order. -/
abbrev QueryArgs := List (String × List String)

/-- Function `parseRequest` (path part): strip the configured URL prefix, split
the remainder on `/`; chunk 0 is the table, chunk 1 (when present) the
row id, `""` otherwise. -/
def parsePath (urlPrefix path : String) : String × String :=
  let parts := (goSplitChar '/' (goTrimPrefix path urlPrefix).data).map
    fun cs => (⟨cs⟩ : String)
  (parts.headD "", parts.getD 1 "")

/-! ### SELECT builder (`buildSelectQuery`) -/

/-- The squirrel `SelectBuilder` state accumulated by
`buildSelectQuery`: `SELECT * FROM table`, WHERE conditions, ORDER BY
terms, and the LIMIT/OFFSET strings (stored as rendered `uint64`
values). -/
structure SelectQuery where
  table : String
  wheres : List Pred
  orderBys : List String
  limit : Option Nat
  offset : Option Nat
  deriving DecidableEq, Repr

/-- The loop of `buildSelectQuery` over the query-string map:
`__limit__`/`__offset__` parse with `strconv.Atoi`, are silently
skipped on error and stored via `uint64(_)` on success;
`__order_by__` appends its values as ORDER BY terms; any other key
becomes an `Eq{key: values}` WHERE condition. -/
def selectLoop : SelectQuery → QueryArgs → SelectQuery
  | q, [] => q
  | q, (key, vs) :: rest =>
    let q' :=
      if key = "__limit__" then
        match goAtoi (vs.headD "") with
        | some n => { q with limit := some (goUint64 n) }
        | none => q
      else if key = "__offset__" then
        match goAtoi (vs.headD "") with
        | some n => { q with offset := some (goUint64 n) }
        | none => q
      else if key = "__order_by__" then
        { q with orderBys := q.orderBys ++ vs }
      else
        { q with wheres := q.wheres ++ [.inList key vs] }
    selectLoop q' rest

/-- Function `buildSelectQuery` (builder state): parse the request, add the
implicit `id = ?` condition for a non-empty path id, then fold the
query-string map. -/
def buildSelectQ (urlPrefix path : String) (args : QueryArgs) : SelectQuery :=
  let (table, id) := parsePath urlPrefix path
  let q : SelectQuery := { table := table, wheres := [], orderBys := [],
                           limit := none, offset := none }
  let q := if id ≠ "" then { q with wheres := [.eqStr "id" id] } else q
  selectLoop q args

/-- squirrel `SelectBuilder.ToSql`, question-mark form. -/
def SelectQuery.toSqlQ (q : SelectQuery) : String :=
  "SELECT * FROM " ++ q.table ++
  (if q.wheres.isEmpty then "" else
    " WHERE " ++ String.intercalate " AND " (q.wheres.map Pred.render)) ++
  (if q.orderBys.isEmpty then "" else
    " ORDER BY " ++ String.intercalate ", " q.orderBys) ++
  (match q.limit with | some n => " LIMIT " ++ Nat.repr n | none => "") ++
  (match q.offset with | some n => " OFFSET " ++ Nat.repr n | none => "")

/-- The bound arguments of the SELECT, in rendering order. -/
def SelectQuery.sqlArgs (q : SelectQuery) : List Json :=
  q.wheres.flatMap Pred.args

/-- Function `buildSelectQuery` end to end: the `(sql, args)` pair returned to
`read` (`ToSql` never fails for the conditions this builder creates). -/
def buildSelectQuery (dbtype urlPrefix path : String) (args : QueryArgs) :
    String × List Json :=
  let q := buildSelectQ urlPrefix path args
  (formatPlaceholders dbtype q.toSqlQ, q.sqlArgs)

/-! ### UPDATE builder (`buildUpdateQuery`) -/

/-- The squirrel `UpdateBuilder` state accumulated by
`buildUpdateQuery`: the SET clauses hold the column text as written by
the builder (already dialect-quoted by the source). -/
structure UpdateQuery where
  table : String
  setClauses : List (String × Json)
  wheres : List Pred
  limit : Option Nat

/-- The loop of `buildUpdateQuery` over the query-string map: only
`__limit__` is consumed as a control; every other key (including
`__offset__` and `__order_by__`) becomes a WHERE condition. -/
def updateLoop : UpdateQuery → QueryArgs → UpdateQuery
  | q, [] => q
  | q, (key, vs) :: rest =>
    let q' :=
      if key = "__limit__" then
        match goAtoi (vs.headD "") with
        | some n => { q with limit := some (goUint64 n) }
        | none => q
      else
        { q with wheres := q.wheres ++ [.inList key vs] }
    updateLoop q' rest

/-- Function `buildUpdateQuery` (builder state): quote each body key per dialect
into a SET clause, add the implicit id condition, then fold the
query-string map. -/
def buildUpdateQ (dbtype urlPrefix path : String) (args : QueryArgs)
    (values : List (String × Json)) : UpdateQuery :=
  let (table, id) := parsePath urlPrefix path
  let q : UpdateQuery := { table := table,
                           setClauses := values.map fun kv =>
                             (quoteIdent dbtype kv.1, kv.2),
                           wheres := [], limit := none }
  let q := if id ≠ "" then { q with wheres := [.eqStr "id" id] } else q
  updateLoop q args

/-- squirrel `UpdateBuilder.ToSql`, question-mark form; errors when the
table or the SET clause list is empty (as the library does). -/
def UpdateQuery.toSqlQ (q : UpdateQuery) : Except String (String × List Json) :=
  if q.table = "" then .error "update statements must specify a table"
  else if q.setClauses.isEmpty then
    .error "update statements must have at least one Set clause"
  else
    .ok ("UPDATE " ++ q.table ++ " SET " ++
      String.intercalate ", " (q.setClauses.map fun kv => kv.1 ++ " = ?") ++
      (if q.wheres.isEmpty then "" else
        " WHERE " ++ String.intercalate " AND " (q.wheres.map Pred.render)) ++
      (match q.limit with | some n => " LIMIT " ++ Nat.repr n | none => ""),
      q.setClauses.map Prod.snd ++ q.wheres.flatMap Pred.args)

/-- Function `buildUpdateQuery` end to end. -/
def buildUpdateQuery (dbtype urlPrefix path : String) (args : QueryArgs)
    (values : List (String × Json)) : Except String (String × List Json) :=
  (buildUpdateQ dbtype urlPrefix path args values).toSqlQ.map
    fun r => (formatPlaceholders dbtype r.1, r.2)

/-! ### DELETE builder (`buildDeleteQuery`) -/

/-- The squirrel `DeleteBuilder` state accumulated by
`buildDeleteQuery`. -/
structure DeleteQuery where
  table : String
  wheres : List Pred
  limit : Option Nat
  deriving DecidableEq, Repr

/-- The loop of `buildDeleteQuery` over the query-string map: identical
to the update loop — only `__limit__` is consumed. -/
def deleteLoop : DeleteQuery → QueryArgs → DeleteQuery
  | q, [] => q
  | q, (key, vs) :: rest =>
    let q' :=
      if key = "__limit__" then
        match goAtoi (vs.headD "") with
        | some n => { q with limit := some (goUint64 n) }
        | none => q
      else
        { q with wheres := q.wheres ++ [.inList key vs] }
    deleteLoop q' rest

/-- Function `buildDeleteQuery` (builder state). -/
def buildDeleteQ (urlPrefix path : String) (args : QueryArgs) : DeleteQuery :=
  let (table, id) := parsePath urlPrefix path
  let q : DeleteQuery := { table := table, wheres := [], limit := none }
  let q := if id ≠ "" then { q with wheres := [.eqStr "id" id] } else q
  deleteLoop q args

/-- squirrel `DeleteBuilder.ToSql`, question-mark form; errors when the
table is empty. -/
def DeleteQuery.toSqlQ (q : DeleteQuery) : Except String (String × List Json) :=
  if q.table = "" then .error "delete statements must specify a From table"
  else
    .ok ("DELETE FROM " ++ q.table ++
      (if q.wheres.isEmpty then "" else
        " WHERE " ++ String.intercalate " AND " (q.wheres.map Pred.render)) ++
      (match q.limit with | some n => " LIMIT " ++ Nat.repr n | none => ""),
      q.wheres.flatMap Pred.args)

/-- Function `buildDeleteQuery` end to end. -/
def buildDeleteQuery (dbtype urlPrefix path : String) (args : QueryArgs) :
    Except String (String × List Json) :=
  (buildDeleteQ urlPrefix path args).toSqlQ.map
    fun r => (formatPlaceholders dbtype r.1, r.2)

/-! ### INSERT builder (`createSingle`) -/

/-- Function `createSingle`'s SQL generation: each body key is quoted per
dialect into the column list, the values all become bound parameters;
squirrel renders `INSERT INTO t (c1,c2) VALUES (?,?)` (the column list
is omitted when the body object is empty) and errors on an empty table
name. -/
def createSingleSql (dbtype table : String) (item : List (String × Json)) :
    Except String (String × List Json) :=
  if table = "" then .error "insert statements must specify a table"
  else
    let columns := item.map fun kv => quoteIdent dbtype kv.1
    .ok (formatPlaceholders dbtype
      ("INSERT INTO " ++ table ++ " " ++
        (if columns.isEmpty then "" else
          "(" ++ String.intercalate "," columns ++ ") ") ++
        "VALUES (" ++ placeholders item.length ++ ")"),
      item.map Prod.snd)

/-! ### The POST handler (`create`, current revision)

`create` rejects a Content-Type other than `application/json`, then
JSON-decodes the body (`none` models an `Unmarshal` error), requires
the decoded value to be an object, and otherwise hands the object to
`createSingle`, which executes the INSERT.  The outcome distinguishes
a rejection (no SQL executed) from an executed statement. -/
inductive CreateResult where
  | badRequest (msg : String)
  | exec (sql : String) (args : List Json)

/-- Function `create` from the current revision (Content-Type strict). -/
def create (dbtype urlPrefix : String) (contentType path : String)
    (parsedBody : Option Json) : CreateResult :=
  if contentType ≠ "application/json" then .badRequest "invalid content type"
  else
    match parsedBody with
    | none => .badRequest "json unmarshal error"
    | some (.obj item) =>
      let (table, _) := parsePath urlPrefix path
      match createSingleSql dbtype table item with
      | .error e => .badRequest e
      | .ok (sql, args) => .exec sql args
    | some _ => .badRequest "invalid request"

/-! ### The raw-SQL endpoint (`raw`, current revision) -/

/-- The request data the raw handler inspects.  `bodyText` is the
request body as bytes; `bodyJson` is what `json.Unmarshal` makes of it
(`none` for syntactically invalid JSON); `formSql` is the value the
form/multipart branch resolves for the `sql` key (form value, post
form value, or uploaded `sql` file, in that order). -/
structure RawRequest where
  contentType : String
  bodyText : String
  bodyJson : Option Json
  formSql : String

/-- Model of `json.Unmarshal(body, &RawQuery{})`: a JSON object yields its
`sql` field (absent or null leaves the zero value `""`; a non-string
`sql` is a type error), top-level `null` leaves the zero value, and
any other top-level shape is an error. -/
def unmarshalRawQuery : Json → Except String String
  | .obj fields =>
    match fields.lookup "sql" with
    | some (.str s) => .ok s
    | some .null => .ok ""
    | some _ => .error "json: cannot unmarshal into field sql"
    | none => .ok ""
  | .null => .ok ""
  | _ => .error "json: cannot unmarshal into RawQuery"

/-- The SQL string the raw handler extracts from the request, per
content type, before trimming. -/
def rawExtract (r : RawRequest) : Except String String :=
  if r.contentType = "text/plain" then .ok r.bodyText
  else if r.contentType = "application/json" then
    match r.bodyJson with
    | none => .error "invalid character in json"
    | some j => unmarshalRawQuery j
  else if goHasPrefix r.contentType "multipart/form-data" ||
          r.contentType = "application/x-www-form-urlencoded" then
    .ok r.formSql
  else .error "not supported content type"

/-- Outcome of the raw handler: a rejection (no SQL executed), a read
executed through `readQuery`, or a write executed through `db.Exec`. -/
inductive RawOutcome where
  | badRequest (msg : String)
  | execRead (sql : String)
  | execWrite (sql : String)
  deriving DecidableEq, Repr

/-- Function `raw` from the current revision: extract per content type, trim,
reject an empty query, classify with `detectQueryType`, and dispatch. -/
def raw (r : RawRequest) : RawOutcome :=
  match rawExtract r with
  | .error e => .badRequest e
  | .ok s0 =>
    let s := goTrimSpace s0
    if s = "" then .badRequest "empty query"
    else if detectQueryType s = "read" then .execRead s
    else if detectQueryType s = "write" then .execWrite s
    else .badRequest "unknown query type"

/-! ### Routing (`HandleQuery`) -/

/-- Predicate `Config.IsBaseUrl` from the current revision: the request path is
the configured prefix, or becomes it after appending a slash. -/
def isBaseUrl (cfgUrl path : String) : Bool :=
  path = cfgUrl || path ++ "/" = cfgUrl

/-- How `HandleQuery` disposes of a request. -/
inductive Route where
  | rawQuery
  | healthCheck
  | read
  | create
  | update
  | delete
  | methodNotAllowed
  deriving DecidableEq, Repr

/-- Routing of `HandleQuery` from the current revision: a base-URL request
runs the raw handler only when the capability flag is set and the verb
is POST; otherwise it answers a database-ping health check.  Non-base
paths dispatch on the verb. -/
def handleRoute (allowRaw : Bool) (cfgUrl method path : String) : Route :=
  if isBaseUrl cfgUrl path then
    if allowRaw && method = "POST" then .rawQuery else .healthCheck
  else
    match method with
    | "GET" => .read
    | "POST" => .create
    | "PUT" => .update
    | "DELETE" => .delete
    | _ => .methodNotAllowed

/-- The HTTP status the health-check branch writes: 200 when the
database ping succeeds, 500 otherwise. -/
def healthStatus (pingOk : Bool) : Nat := if pingOk then 200 else 500

/-- Whether a route can execute SQL taken from the request (the health
check pings the database but runs no client-supplied statement). -/
def routeRunsClientSql : Route → Bool
  | .rawQuery | .read | .create | .update | .delete => true
  | .healthCheck | .methodNotAllowed => false

/-- Routing of `HandleQuery` from the previous revision kept in the
repository (sqld.go): a base-URL request with the capability off (or a
non-POST verb) is answered with `BadRequest("invalid raw query
request")` instead of a health check. -/
inductive LegacyRoute where
  | rawQuery
  | badRequest (msg : String)
  | read
  | create
  | update
  | delete
  | methodNotAllowed
  deriving DecidableEq, Repr

def handleRouteLegacy (allowRaw : Bool) (cfgUrl method path : String) :
    LegacyRoute :=
  if path = cfgUrl then
    if allowRaw && method = "POST" then .rawQuery
    else .badRequest "invalid raw query request"
  else
    match method with
    | "GET" => .read
    | "POST" => .create
    | "PUT" => .update
    | "DELETE" => .delete
    | _ => .methodNotAllowed

/-! ### Delimited-text serialization (`quoteMinimal`, `writeResponseCsv`) -/

/-- Go `strconv.Quote`, modelled for printable text: wrap in double
quotes; escape `"` and `\` with a backslash; use the named escapes for
the ASCII control characters Go names, `\xNN` for the remaining
control bytes; other characters pass through (Go additionally escapes
non-printable non-ASCII runes, which no claim exercises). -/
def goQuoteChar (c : Char) : List Char :=
  if c = '"' then ['\\', '"']
  else if c = '\\' then ['\\', '\\']
  else if c = '\x07' then ['\\', 'a']
  else if c = '\x08' then ['\\', 'b']
  else if c = '\x0c' then ['\\', 'f']
  else if c = '\n' then ['\\', 'n']
  else if c = '\r' then ['\\', 'r']
  else if c = '\t' then ['\\', 't']
  else if c = '\x0b' then ['\\', 'v']
  else if c.toNat < 0x20 || c.toNat = 0x7f then
    ['\\', 'x', Nat.digitChar (c.toNat / 16), Nat.digitChar (c.toNat % 16)]
  else [c]

/-- Go `strconv.Quote` on a whole string. -/
def goQuote (s : String) : String :=
  ⟨'"' :: s.data.flatMap goQuoteChar ++ ['"']⟩

/-- Function `quoteMinimal` from the source: quote the field exactly when it
contains a comma, a double quote, or a newline — a fixed character
set, independent of the active output delimiter. -/
def quoteMinimal (field : String) : String :=
  if goContainsAny field ",\"\n" then goQuote field else field

/-- The delimiter `writeResponseCsv` joins fields with: a tab for
`Accept: text/tsv`, a comma otherwise. -/
def csvSeparator (acceptHeader : String) : String :=
  if acceptHeader = "text/tsv" then "\t" else ","

/-- The textual rendering `fmt.Sprintf("%v", val)` / `"null"` applied
to one cell before quoting (numbers are carried as their rendering). -/
def displayVal : Option Json → String
  | none => "null"
  | some .null => "null"
  | some (.str s) => s
  | some (.num r) => r
  | some (.bool b) => if b then "true" else "false"
  | some (.obj _) => "map[…]"
  | some (.arr _) => "[…]"

/-- One data line of `writeResponseCsv`: the row's values in header
order, each passed through `quoteMinimal`, joined by the active
separator (the final newline is left off here). -/
def renderCsvRow (sep : String) (headers : List String)
    (row : List (String × Json)) : String :=
  String.intercalate sep (headers.map fun h => quoteMinimal (displayVal (row.lookup h)))

/-! ### Row-set semantics of the generated SELECT statements

To settle the result-set claims (C5, C7, C10) the generated statement
is interpreted against an abstract table: a list of rows, each mapping
column names to text values (`none` models SQL NULL or a missing
column, on which every equality/IN comparison is not-true).  The
standard SQL meaning of the generated fragment is: keep the rows on
which every WHERE condition holds, then apply OFFSET, then LIMIT.
ORDER BY only permutes rows and cannot change which or how many rows
are returned, so it is not part of this row-set semantics. -/
abbrev Row := List (String × String)

/-- SQL truth of one generated condition on one row. -/
def evalPred (row : Row) : Pred → Bool
  | .eqStr c v => match row.lookup c with
    | some x => x = v
    | none => false
  | .inList c vs => match row.lookup c with
    | some x => vs.contains x
    | none => false

/-- The rows a generated SELECT returns when run against `rows`. -/
def execSelect (q : SelectQuery) (rows : List Row) : List Row :=
  let filtered := rows.filter fun r => q.wheres.all (evalPred r)
  let offsetted := match q.offset with
    | some o => filtered.drop o
    | none => filtered
  match q.limit with
  | some l => offsetted.take l
  | none => offsetted

/-! ### Derived descriptions used by the theorems -/

/-- The keyword set the classifier routes to the read path. -/
def readKeywords : List String :=
  ["SELECT", "SHOW", "DESCRIBE", "EXPLAIN", "DESC", "PRAGMA"]

/-- The keyword set the classifier routes to the write path. -/
def writeKeywords : List String :=
  ["INSERT", "UPDATE", "DELETE", "CREATE", "DROP", "ALTER"]

/-- The reserved control-parameter names. -/
def controlKeys : List String := ["__limit__", "__offset__", "__order_by__"]

/-- The implicit WHERE condition contributed by a path row id. -/
def idWheres (id : String) : List Pred :=
  if id ≠ "" then [.eqStr "id" id] else []

/-- The WHERE conditions the SELECT loop derives from the query map:
every key except the three control names, verbatim, in order. -/
def selectFilters (args : QueryArgs) : List Pred :=
  args.filterMap fun kv =>
    if kv.1 = "__limit__" ∨ kv.1 = "__offset__" ∨ kv.1 = "__order_by__" then
      none
    else some (.inList kv.1 kv.2)

/-- The WHERE conditions the UPDATE and DELETE loops derive from the
query map: every key except `__limit__` — including `__offset__` and
`__order_by__` — verbatim, in order. -/
def updateDeleteFilters (args : QueryArgs) : List Pred :=
  args.filterMap fun kv =>
    if kv.1 = "__limit__" then none else some (.inList kv.1 kv.2)

/-- The `uint64` value of the last entry for control key `ctl` whose
first value parses with `strconv.Atoi`, if any (later entries
overwrite earlier ones; unparsable ones are skipped). -/
def lastParsedControl (ctl : String) : QueryArgs → Option Nat
  | [] => none
  | (key, vs) :: rest =>
    match lastParsedControl ctl rest with
    | some v => some v
    | none =>
      if key = ctl then (goAtoi (vs.headD "")).map goUint64 else none

/-- The limit the query map ends up installing, if any. -/
def lastLimit (args : QueryArgs) : Option Nat :=
  lastParsedControl "__limit__" args

/-- The offset the query map ends up installing, if any. -/
def lastOffset (args : QueryArgs) : Option Nat :=
  lastParsedControl "__offset__" args

/-- Scan for a double quote that is not consumed by a preceding
backslash escape; `true` means every quote in the character stream is
escaped. -/
def noUnescapedQuotesAux : Bool → List Char → Bool
  | _, [] => true
  | true, _ :: rest => noUnescapedQuotesAux false rest
  | false, c :: rest =>
    if c = '\\' then noUnescapedQuotesAux true rest
    else if c = '"' then false
    else noUnescapedQuotesAux false rest

/-- Scan driver starting outside an escape. -/
def noUnescapedQuotes (cs : List Char) : Bool := noUnescapedQuotesAux false cs

/-! ## Helper lemmas on the builder loops -/

theorem selectLoop_wheres (args : QueryArgs) (q : SelectQuery) :
    (selectLoop q args).wheres = q.wheres ++ selectFilters args := by
  induction args generalizing q with
  | nil => simp [selectLoop, selectFilters]
  | cons kv rest ih =>
    obtain ⟨key, vs⟩ := kv
    by_cases h1 : key = "__limit__"
    · subst h1
      simp only [selectLoop, if_pos rfl]
      cases h : goAtoi (vs.headD "") with
      | some n => simp [h, ih, selectFilters]
      | none => simp [h, ih, selectFilters]
    · by_cases h2 : key = "__offset__"
      · subst h2
        simp only [selectLoop, if_neg h1, if_pos rfl]
        cases h : goAtoi (vs.headD "") with
        | some n => simp [h, ih, selectFilters, h1]
        | none => simp [h, ih, selectFilters, h1]
      · by_cases h3 : key = "__order_by__"
        · subst h3
          simp only [selectLoop, if_neg h1, if_neg h2, if_pos rfl]
          simp [ih, selectFilters, h1, h2]
        · simp only [selectLoop, if_neg h1, if_neg h2, if_neg h3]
          simp [ih, selectFilters, h1, h2, h3]

theorem selectLoop_limit (args : QueryArgs) (q : SelectQuery) :
    (selectLoop q args).limit =
      match lastLimit args with
      | some v => some v
      | none => q.limit := by
  induction args generalizing q with
  | nil => simp [selectLoop, lastLimit, lastParsedControl]
  | cons kv rest ih =>
    obtain ⟨key, vs⟩ := kv
    simp only [selectLoop, lastLimit, lastParsedControl] at *
    by_cases h1 : key = "__limit__"
    · subst h1
      simp only [if_pos rfl]
      cases h : goAtoi (vs.headD "") with
      | some n =>
        rw [ih]
        cases hr : lastParsedControl "__limit__" rest <;> simp [h]
      | none =>
        rw [ih]
        cases hr : lastParsedControl "__limit__" rest <;> simp [h]
    · simp only [if_neg h1]
      by_cases h2 : key = "__offset__"
      · subst h2
        simp only [if_pos rfl]
        cases h : goAtoi (vs.headD "") with
        | some n =>
          rw [ih]
          cases hr : lastParsedControl "__limit__" rest <;> simp [h, h1]
        | none =>
          rw [ih]
          cases hr : lastParsedControl "__limit__" rest <;> simp [h, h1]
      · by_cases h3 : key = "__order_by__"
        · subst h3
          simp only [if_neg h2, if_pos rfl]
          rw [ih]
          cases hr : lastParsedControl "__limit__" rest <;> simp [h1]
        · simp only [if_neg h2, if_neg h3]
          rw [ih]
          cases hr : lastParsedControl "__limit__" rest <;> simp [h1]

theorem selectLoop_offset (args : QueryArgs) (q : SelectQuery) :
    (selectLoop q args).offset =
      match lastOffset args with
      | some v => some v
      | none => q.offset := by
  induction args generalizing q with
  | nil => simp [selectLoop, lastOffset, lastParsedControl]
  | cons kv rest ih =>
    obtain ⟨key, vs⟩ := kv
    simp only [selectLoop, lastOffset, lastParsedControl] at *
    by_cases h1 : key = "__limit__"
    · subst h1
      simp only [if_pos rfl]
      cases h : goAtoi (vs.headD "") with
      | some n =>
        rw [ih]
        cases hr : lastParsedControl "__offset__" rest <;> simp
      | none =>
        rw [ih]
        cases hr : lastParsedControl "__offset__" rest <;> simp
    · simp only [if_neg h1]
      by_cases h2 : key = "__offset__"
      · subst h2
        simp only [if_pos rfl]
        cases h : goAtoi (vs.headD "") with
        | some n =>
          rw [ih]
          cases hr : lastParsedControl "__offset__" rest <;> simp [h]
        | none =>
          rw [ih]
          cases hr : lastParsedControl "__offset__" rest <;> simp [h]
      · by_cases h3 : key = "__order_by__"
        · subst h3
          simp only [if_neg h2, if_pos rfl]
          rw [ih]
          cases hr : lastParsedControl "__offset__" rest <;> simp [h2]
        · simp only [if_neg h2, if_neg h3]
          rw [ih]
          cases hr : lastParsedControl "__offset__" rest <;> simp [h2]

theorem updateLoop_wheres (args : QueryArgs) (q : UpdateQuery) :
    (updateLoop q args).wheres = q.wheres ++ updateDeleteFilters args := by
  induction args generalizing q with
  | nil => simp [updateLoop, updateDeleteFilters]
  | cons kv rest ih =>
    obtain ⟨key, vs⟩ := kv
    by_cases h1 : key = "__limit__"
    · subst h1
      simp only [updateLoop, if_pos rfl]
      cases h : goAtoi (vs.headD "") with
      | some n => simp [h, ih, updateDeleteFilters]
      | none => simp [h, ih, updateDeleteFilters]
    · simp only [updateLoop, if_neg h1]
      simp [ih, updateDeleteFilters, h1]

theorem updateLoop_setClauses (args : QueryArgs) (q : UpdateQuery) :
    (updateLoop q args).setClauses = q.setClauses := by
  induction args generalizing q with
  | nil => simp [updateLoop]
  | cons kv rest ih =>
    obtain ⟨key, vs⟩ := kv
    by_cases h1 : key = "__limit__"
    · subst h1
      simp only [updateLoop, if_pos rfl]
      cases h : goAtoi (vs.headD "") with
      | some n => simp [h, ih]
      | none => simp [h, ih]
    · simp only [updateLoop, if_neg h1]
      simp [ih]

theorem deleteLoop_wheres (args : QueryArgs) (q : DeleteQuery) :
    (deleteLoop q args).wheres = q.wheres ++ updateDeleteFilters args := by
  induction args generalizing q with
  | nil => simp [deleteLoop, updateDeleteFilters]
  | cons kv rest ih =>
    obtain ⟨key, vs⟩ := kv
    by_cases h1 : key = "__limit__"
    · subst h1
      simp only [deleteLoop, if_pos rfl]
      cases h : goAtoi (vs.headD "") with
      | some n => simp [h, ih, updateDeleteFilters]
      | none => simp [h, ih, updateDeleteFilters]
    · simp only [deleteLoop, if_neg h1]
      simp [ih, updateDeleteFilters, h1]

theorem selectLoop_table (args : QueryArgs) (q : SelectQuery) :
    (selectLoop q args).table = q.table := by
  induction args generalizing q with
  | nil => simp [selectLoop]
  | cons kv rest ih =>
    obtain ⟨key, vs⟩ := kv
    by_cases h1 : key = "__limit__"
    · subst h1
      simp only [selectLoop, if_pos rfl]
      cases h : goAtoi (vs.headD "") with
      | some n => simp [h, ih]
      | none => simp [h, ih]
    · by_cases h2 : key = "__offset__"
      · subst h2
        simp only [selectLoop, if_neg h1, if_pos rfl]
        cases h : goAtoi (vs.headD "") with
        | some n => simp [h, ih]
        | none => simp [h, ih]
      · by_cases h3 : key = "__order_by__"
        · subst h3
          simp only [selectLoop, if_neg h1, if_neg h2, if_pos rfl]
          simp [ih]
        · simp only [selectLoop, if_neg h1, if_neg h2, if_neg h3]
          simp [ih]

/-! ## Helper lemmas on path splitting -/

theorem goSplitChar_ne_nil (sep : Char) (cs : List Char) :
    goSplitChar sep cs ≠ [] := by
  cases cs with
  | nil => simp [goSplitChar]
  | cons c rest =>
    simp only [goSplitChar]
    rcases h : goSplitChar sep rest with _ | ⟨r, rs⟩
    · simp
    · by_cases hc : c = sep <;> simp [hc]

theorem goSplitChar_not_mem (sep : Char) (cs : List Char) (h : sep ∉ cs) :
    goSplitChar sep cs = [cs] := by
  induction cs with
  | nil => rfl
  | cons c rest ih =>
    simp only [List.mem_cons, not_or] at h
    have hc : c ≠ sep := Ne.symm h.1
    simp [goSplitChar, ih h.2, hc]

theorem goSplitChar_append (sep : Char) (cs ds : List Char) (h : sep ∉ cs) :
    goSplitChar sep (cs ++ sep :: ds) = cs :: goSplitChar sep ds := by
  induction cs with
  | nil =>
    simp only [List.nil_append, goSplitChar]
    rcases hd : goSplitChar sep ds with _ | ⟨r, rs⟩
    · exact absurd hd (goSplitChar_ne_nil sep ds)
    · simp
  | cons c rest ih =>
    simp only [List.mem_cons, not_or] at h
    have hc : c ≠ sep := Ne.symm h.1
    simp only [List.cons_append, goSplitChar, List.append_eq]
    rw [ih h.2]
    simp [hc]

theorem parsePath_table (t : String) (ht : ('/' : Char) ∉ t.data) :
    parsePath "/" ("/" ++ t) = (t, "") := by
  obtain ⟨cs⟩ := t
  have hdata : (("/" : String) ++ ⟨cs⟩).data = '/' :: cs := rfl
  simp only [parsePath, goTrimPrefix, hdata]
  simp only [List.isPrefixOf, List.length]
  simp [goSplitChar_not_mem '/' cs ht]

theorem parsePath_table_id (t v : String) (ht : ('/' : Char) ∉ t.data)
    (hv : ('/' : Char) ∉ v.data) :
    parsePath "/" ("/" ++ t ++ "/" ++ v) = (t, v) := by
  obtain ⟨cs⟩ := t
  obtain ⟨ds⟩ := v
  have hdata : (("/" : String) ++ ⟨cs⟩ ++ "/" ++ ⟨ds⟩).data
      = '/' :: (cs ++ '/' :: ds) := by
    simp [String.data_append]
  simp only [parsePath, goTrimPrefix, hdata]
  simp only [List.isPrefixOf, List.length]
  simp [goSplitChar_append '/' cs ds ht, goSplitChar_not_mem '/' ds hv]

/-! ## Claim C3 — raw query classification -/

/-- Claim C3, counterexample: the claim states that
`detectQueryType "  select 1"` is read, because the classifier is said
to uppercase the first whitespace-delimited token.  The source splits
on the space character only, so a leading space makes the inspected
token empty and the function returns "unknown", not "read". -/
theorem detectQueryType_leading_space_not_read :
    detectQueryType "  select 1" = "unknown" ∧ ("unknown" : String) ≠ "read" := by
  constructor
  · rfl
  · decide

set_option maxHeartbeats 1600000 in
/-- Claim C3 (amended): `detectQueryType` uppercases the chunk of the
query before the first space character (trimmed of surrounding white
space) and returns "read" exactly when that token is one of SELECT,
SHOW, DESCRIBE, EXPLAIN, DESC, PRAGMA, "write" exactly when it is one
of INSERT, UPDATE, DELETE, CREATE, DROP, ALTER, and "unknown"
otherwise (in which case the raw endpoint answers
BadRequest "unknown query type").  Because of the space-only split,
`detectQueryType "  select 1"` itself is "unknown"; the raw endpoint
still treats a body `"  select 1"` as a read because it trims the
query before classifying.  `detectType("DROP TABLE x")` is write and
`detectType("FOOBAR")` is unknown, as claimed. -/
theorem detectQueryType_spec (q : String) :
    (detectQueryType q = "read" ↔ detectAction q ∈ readKeywords) ∧
    (detectQueryType q = "write" ↔ detectAction q ∈ writeKeywords) ∧
    (detectQueryType q = "unknown" ↔
      detectAction q ∉ readKeywords ∧ detectAction q ∉ writeKeywords) ∧
    detectQueryType "DROP TABLE x" = "write" ∧
    detectQueryType "FOOBAR" = "unknown" ∧
    detectQueryType "  select 1" = "unknown" ∧
    raw { contentType := "text/plain", bodyText := "  select 1",
          bodyJson := none, formSql := "" } = .execRead "select 1" := by
  have h : detectQueryType q =
      (if detectAction q = "SELECT" || detectAction q = "SHOW" ||
          detectAction q = "DESCRIBE" || detectAction q = "EXPLAIN" ||
          detectAction q = "DESC" || detectAction q = "PRAGMA" then "read"
       else if detectAction q = "INSERT" || detectAction q = "UPDATE" ||
          detectAction q = "DELETE" || detectAction q = "CREATE" ||
          detectAction q = "DROP" || detectAction q = "ALTER" then "write"
       else "unknown") := rfl
  refine ⟨?_, ?_, ?_, by decide, by decide, by decide, by decide⟩
  · rw [h]
    split_ifs with h1 h2
    · simp only [Bool.or_eq_true, decide_eq_true_eq] at h1
      exact iff_of_true rfl (by simp only [readKeywords, List.mem_cons,
        List.not_mem_nil, or_false]; tauto)
    · simp only [Bool.or_eq_true, decide_eq_true_eq] at h1
      exact iff_of_false (by decide) (by simp only [readKeywords,
        List.mem_cons, List.not_mem_nil, or_false]; tauto)
    · simp only [Bool.or_eq_true, decide_eq_true_eq] at h1
      exact iff_of_false (by decide) (by simp only [readKeywords,
        List.mem_cons, List.not_mem_nil, or_false]; tauto)
  · rw [h]
    split_ifs with h1 h2
    · simp only [Bool.or_eq_true, decide_eq_true_eq] at h1
      refine iff_of_false (by decide) ?_
      simp only [writeKeywords, List.mem_cons, List.not_mem_nil, or_false]
      rcases h1 with ((((h1 | h1) | h1) | h1) | h1) | h1 <;> rw [h1] <;> decide
    · simp only [Bool.or_eq_true, decide_eq_true_eq] at h2
      exact iff_of_true rfl (by simp only [writeKeywords, List.mem_cons,
        List.not_mem_nil, or_false]; tauto)
    · simp only [Bool.or_eq_true, decide_eq_true_eq] at h2
      exact iff_of_false (by decide) (by simp only [writeKeywords,
        List.mem_cons, List.not_mem_nil, or_false]; tauto)
  · rw [h]
    split_ifs with h1 h2
    · simp only [Bool.or_eq_true, decide_eq_true_eq] at h1
      refine iff_of_false (by decide) ?_
      intro hcon
      exact hcon.1 (by simp only [readKeywords, List.mem_cons,
        List.not_mem_nil, or_false]; tauto)
    · simp only [Bool.or_eq_true, decide_eq_true_eq] at h2
      refine iff_of_false (by decide) ?_
      intro hcon
      exact hcon.2 (by simp only [writeKeywords, List.mem_cons,
        List.not_mem_nil, or_false]; tauto)
    · simp only [Bool.or_eq_true, decide_eq_true_eq] at h1 h2
      refine iff_of_true rfl ⟨?_, ?_⟩
      · simp only [readKeywords, List.mem_cons, List.not_mem_nil, or_false]
        tauto
      · simp only [writeKeywords, List.mem_cons, List.not_mem_nil, or_false]
        tauto

/-! ## Small string lemmas -/

theorem strAppend_assoc (a b c : String) : a ++ b ++ c = a ++ (b ++ c) :=
  String.ext (by simp [String.data_append])

theorem intercalate_one (s x : String) : String.intercalate s [x] = x := rfl

/-! ## Claim C1 — identifier quoting -/

/-- Claim C1, counterexample: the claim states that every
user-controlled identifier needing quoting is wrapped in the dialect's
quote characters in the generated SQL.  For sqlite3,
`buildSelectQuery` on a filter key containing a space interpolates the
key verbatim: the generated statement contains no double quote at
all. -/
theorem buildSelectQuery_unquoted_filter_key :
    buildSelectQuery "sqlite3" "/" "/t" [("a b", ["1"])]
      = ("SELECT * FROM t WHERE a b IN (?)", [.str "1"]) ∧
    ((buildSelectQuery "sqlite3" "/" "/t" [("a b", ["1"])]).1.data.contains '"')
      = false := by
  exact ⟨rfl, rfl⟩

/-- Claim C1 (amended): only the UPDATE SET keys and the INSERT column
names are dialect-quoted (backticks for MySQL, double quotes for
PostgreSQL/SQLite, via `quoteIdent`); the WHERE filter keys of the
SELECT/UPDATE/DELETE builders and the table name are interpolated into
the SQL text verbatim, without quoting. -/
theorem identifier_quoting_spec (dbtype urlPrefix path k v : String)
    (vjson : Json) (args : QueryArgs) (values : List (String × Json))
    (table : String)
    (hk1 : k ≠ "__limit__") (hk2 : k ≠ "__offset__") (hk3 : k ≠ "__order_by__")
    (ht : table ≠ "") (htp : ('/' : Char) ∉ table.data) :
    (buildUpdateQ dbtype urlPrefix path args values).setClauses
      = values.map (fun kv => (quoteIdent dbtype kv.1, kv.2)) ∧
    (buildUpdateQ dbtype "/" ("/" ++ table) [] [(k, vjson)]).toSqlQ
      = .ok ("UPDATE " ++ (table ++ (" SET " ++ (quoteIdent dbtype k ++ " = ?"))),
             [vjson]) ∧
    createSingleSql dbtype table [(k, vjson)]
      = .ok (formatPlaceholders dbtype
          ("INSERT INTO " ++ (table ++ (" " ++ ("(" ++ (quoteIdent dbtype k ++ (") " ++ "VALUES (?)")))))),
          [vjson]) ∧
    (buildSelectQ "/" ("/" ++ table) [(k, [v])]).toSqlQ
      = "SELECT * FROM " ++ (table ++ (" WHERE " ++ (k ++ " IN (?)"))) ∧
    (buildDeleteQ "/" ("/" ++ table) [(k, [v])]).toSqlQ
      = .ok ("DELETE FROM " ++ (table ++ (" WHERE " ++ (k ++ " IN (?)"))),
             [.str v]) ∧
    (buildSelectQ urlPrefix path args).table = (parsePath urlPrefix path).1 := by
  refine ⟨?_, ?_, ?_, ?_, ?_, ?_⟩
  · unfold buildUpdateQ
    cases hp : parsePath urlPrefix path with
    | mk t i =>
      by_cases hi : i ≠ "" <;>
        simp [hi, updateLoop_setClauses]
  · unfold buildUpdateQ
    rw [parsePath_table table htp]
    simp only [ne_eq, not_true_eq_false, if_neg, ite_false]
    simp only [updateLoop, UpdateQuery.toSqlQ, ht, List.map_cons, List.map_nil,
      List.isEmpty_cons, if_false, Bool.false_eq_true, List.flatMap_nil,
      List.append_nil, ite_false, intercalate_one]
    simp [strAppend_assoc]
  · unfold createSingleSql
    rw [if_neg ht]
    simp only [List.map_cons, List.map_nil, List.isEmpty_cons, placeholders,
      List.replicate, intercalate_one]
    simp [strAppend_assoc]
  · unfold buildSelectQ
    rw [parsePath_table table htp]
    simp only [ne_eq, not_true_eq_false, ite_false]
    simp only [selectLoop, hk1, hk2, hk3, if_false, if_neg,
      SelectQuery.toSqlQ, Pred.render, placeholders, List.replicate,
      intercalate_one, List.map_cons, List.map_nil, List.isEmpty_cons,
      List.isEmpty_nil]
    simp [hk1, hk2, hk3, intercalate_one, Pred.render, placeholders,
      List.replicate, strAppend_assoc]
  · unfold buildDeleteQ
    rw [parsePath_table table htp]
    simp only [ne_eq, not_true_eq_false, ite_false]
    simp only [deleteLoop, hk1, if_false, DeleteQuery.toSqlQ, Pred.render,
      placeholders, List.replicate, intercalate_one, Pred.args]
    rw [if_neg ht]
    simp [hk1, strAppend_assoc, Pred.render, placeholders, List.replicate,
      intercalate_one, Pred.args]
  · unfold buildSelectQ
    cases hp : parsePath urlPrefix path with
    | mk t i =>
      by_cases hi : i ≠ "" <;> simp [hi, selectLoop_table]

/-- Witness for `identifier_quoting_spec` at a concrete instance
(MySQL dialect, identifiers containing spaces). -/
theorem identifier_quoting_spec_witness :
    (buildUpdateQ "mysql" "/x/" "/p" [("q", ["2"])] [("c d", Json.null)]).setClauses
      = [("`c d`", Json.null)] ∧
    (buildUpdateQ "mysql" "/" "/t" [] [("a b", Json.null)]).toSqlQ
      = .ok ("UPDATE t SET `a b` = ?", [Json.null]) ∧
    createSingleSql "mysql" "t" [("a b", Json.null)]
      = .ok ("INSERT INTO t (`a b`) VALUES (?)", [Json.null]) ∧
    (buildSelectQ "/" "/t" [("a b", ["1"])]).toSqlQ
      = "SELECT * FROM t WHERE a b IN (?)" ∧
    (buildDeleteQ "/" "/t" [("a b", ["1"])]).toSqlQ
      = .ok ("DELETE FROM t WHERE a b IN (?)", [Json.str "1"]) ∧
    (buildSelectQ "/x/" "/p" [("q", ["2"])]).table = (parsePath "/x/" "/p").1 :=
  identifier_quoting_spec "mysql" "/x/" "/p" "a b" "1" Json.null
    [("q", ["2"])] [("c d", Json.null)] "t"
    (by decide) (by decide) (by decide) (by decide) (by decide)

/-! ## Claim C2 — control parameters never become filters -/

/-- Claim C2, counterexample: the claim states that a query key equal
to a reserved control name never becomes a WHERE filter in any of the
three builders.  In `buildDeleteQuery` (and `buildUpdateQuery`) only
`__limit__` is consumed, so `__order_by__` becomes a WHERE filter
predicate. -/
theorem buildDeleteQuery_order_by_becomes_filter :
    buildDeleteQuery "sqlite3" "/" "/t" [("__order_by__", ["id"])]
      = .ok ("DELETE FROM t WHERE __order_by__ IN (?)", [.str "id"]) ∧
    (buildDeleteQ "/" "/t" [("__order_by__", ["id"])]).wheres
      = [.inList "__order_by__" ["id"]] :=
  ⟨rfl, rfl⟩

/-- Claim C2 (amended): in `buildSelectQuery` all three control names
(`__limit__`, `__offset__`, `__order_by__`) are consumed as controls
and never become WHERE filters; in `buildUpdateQuery` and
`buildDeleteQuery` only `__limit__` is consumed, while `__offset__`
and `__order_by__` fall through to the default branch and become WHERE
filter predicates.  The WHERE condition lists are exactly the implicit
id condition followed by the respective non-control keys, in order. -/
theorem control_keys_spec (dbtype urlPrefix path : String) (args : QueryArgs)
    (values : List (String × Json)) :
    (buildSelectQ urlPrefix path args).wheres
      = idWheres (parsePath urlPrefix path).2 ++ selectFilters args ∧
    (buildUpdateQ dbtype urlPrefix path args values).wheres
      = idWheres (parsePath urlPrefix path).2 ++ updateDeleteFilters args ∧
    (buildDeleteQ urlPrefix path args).wheres
      = idWheres (parsePath urlPrefix path).2 ++ updateDeleteFilters args := by
  refine ⟨?_, ?_, ?_⟩
  · unfold buildSelectQ
    rcases hp : parsePath urlPrefix path with ⟨t, i⟩
    by_cases hi : i = ""
    · subst hi
      simp [selectLoop_wheres, idWheres]
    · simp [hi, selectLoop_wheres, idWheres]
  · unfold buildUpdateQ
    rcases hp : parsePath urlPrefix path with ⟨t, i⟩
    by_cases hi : i = ""
    · subst hi
      simp [updateLoop_wheres, idWheres]
    · simp [hi, updateLoop_wheres, idWheres]
  · unfold buildDeleteQ
    rcases hp : parsePath urlPrefix path with ⟨t, i⟩
    by_cases hi : i = ""
    · subst hi
      simp [deleteLoop_wheres, idWheres]
    · simp [hi, deleteLoop_wheres, idWheres]

/-! ## Claim C4 — base URL with raw queries disabled -/

/-- Claim C4, counterexample: the claim states that with the raw-query
flag disabled every request to the base URL is rejected with
BadRequest (HTTP 400).  The current `HandleQuery` instead serves such
requests as a database-ping health check, answering 200 (ping ok) or
500 (ping failed) — not 400. -/
theorem handleRoute_disabled_raw_not_badRequest :
    handleRoute false "/" "POST" "/" = .healthCheck ∧
    handleRoute false "/" "GET" "/" = .healthCheck ∧
    healthStatus true = 200 ∧ healthStatus false = 500 ∧
    (200 : Nat) ≠ 400 ∧ (500 : Nat) ≠ 400 := by
  decide

/-- Claim C4 (amended): with the raw-query flag disabled, a request to
the base URL — for every HTTP method — never reaches the raw handler
and executes no client-supplied SQL.  The current `HandleQuery`
serves it as a database health check (HTTP 200/500); the previous
revision's handler kept in sqld.go rejected it with
BadRequest "invalid raw query request" (HTTP 400), which is what the
claim describes. -/
theorem handleRoute_disabled_raw_spec (cfgUrl method path : String)
    (hbase : isBaseUrl cfgUrl path = true) :
    handleRoute false cfgUrl method path = .healthCheck ∧
    routeRunsClientSql (handleRoute false cfgUrl method path) = false ∧
    (path = cfgUrl →
      handleRouteLegacy false cfgUrl method path
        = .badRequest "invalid raw query request") := by
  refine ⟨?_, ?_, ?_⟩
  · simp [handleRoute, hbase]
  · simp [handleRoute, hbase, routeRunsClientSql]
  · intro hp
    simp [handleRouteLegacy, hp]

/-- Witness for `handleRoute_disabled_raw_spec` at the root base URL
with a POST. -/
theorem handleRoute_disabled_raw_spec_witness :
    handleRoute false "/" "POST" "/" = .healthCheck ∧
    routeRunsClientSql (handleRoute false "/" "POST" "/") = false ∧
    (("/" : String) = "/" →
      handleRouteLegacy false "/" "POST" "/"
        = .badRequest "invalid raw query request") :=
  handleRoute_disabled_raw_spec "/" "POST" "/" (by decide)

/-! ## Claim C5 — the path row id is an implicit id filter -/

/-- Claim C5 (confirmed): for every table and non-empty row id, the
SELECT built for GET /T/id returns the same result set as the SELECT
built for GET /T?id=id, against any table contents.  The path id
contributes the condition `id = ?` while the query filter contributes
`id IN (?)` with the same bound value, and the two conditions agree on
every row. -/
theorem select_path_id_equiv_query_filter (table v : String)
    (rows : List Row) (ht : ('/' : Char) ∉ table.data)
    (hv : ('/' : Char) ∉ v.data) (hne : v ≠ "") :
    execSelect (buildSelectQ "/" ("/" ++ table ++ "/" ++ v) []) rows
      = execSelect (buildSelectQ "/" ("/" ++ table) [("id", [v])]) rows := by
  unfold buildSelectQ
  rw [parsePath_table_id table v ht hv, parsePath_table table ht]
  simp only [hne, ne_eq, not_false_eq_true, ite_true, not_true_eq_false,
    ite_false]
  have h2 : selectLoop
      { table := table, wheres := [], orderBys := [], limit := none,
        offset := none } [("id", [v])]
      = { table := table, wheres := [Pred.inList "id" [v]], orderBys := [],
          limit := none, offset := none } := by
    simp [selectLoop]
  rw [h2]
  have h1 : selectLoop
      { table := table, wheres := [Pred.eqStr "id" v], orderBys := [],
        limit := none, offset := none } ([] : QueryArgs)
      = { table := table, wheres := [Pred.eqStr "id" v], orderBys := [],
          limit := none, offset := none } := rfl
  rw [h1]
  show rows.filter _ = rows.filter _
  apply List.filter_congr
  intro r _
  simp only [List.all_cons, List.all_nil, Bool.and_true, evalPred]
  cases hl : r.lookup "id" with
  | none => rfl
  | some x =>
    by_cases hx : x = v
    · subst hx
      simp [List.contains]
    · simp [List.contains, hx, Ne.symm hx]

/-- Witness for `select_path_id_equiv_query_filter` on a two-row
table. -/
theorem select_path_id_equiv_query_filter_witness :
    execSelect (buildSelectQ "/" ("/" ++ "products" ++ "/" ++ "5") [])
        [[("id", "5"), ("x", "a")], [("id", "6")]]
      = execSelect (buildSelectQ "/" ("/" ++ "products") [("id", ["5"])])
        [[("id", "5"), ("x", "a")], [("id", "6")]] :=
  select_path_id_equiv_query_filter "products" "5"
    [[("id", "5"), ("x", "a")], [("id", "6")]]
    (by decide) (by decide) (by decide)

/-! ## Claim C6 — create rejects non-JSON and non-object bodies -/

/-- Claim C6 (confirmed): for POST /{table} with a non-empty table
segment, `create` returns BadRequest without executing any SQL exactly
when the Content-Type is not application/json, or the body fails to
decode, or the decoded body is not a single JSON object (arrays and
scalars rejected); when the Content-Type is right and the body decodes
to an object, a parameterized INSERT over exactly the body's keys
(dialect-quoted) is executed with the body's values as the bound
arguments. -/
theorem create_spec (dbtype urlPrefix contentType path : String)
    (body : Option Json)
    (htable : (parsePath urlPrefix path).1 ≠ "") :
    ((∃ msg, create dbtype urlPrefix contentType path body = .badRequest msg) ↔
      (contentType ≠ "application/json" ∨ body = none ∨
        ∀ item, body ≠ some (.obj item))) ∧
    (∀ item, contentType = "application/json" → body = some (.obj item) →
      create dbtype urlPrefix contentType path body
        = .exec (formatPlaceholders dbtype
            ("INSERT INTO " ++ (parsePath urlPrefix path).1 ++ " " ++
              (if (item.map fun kv => quoteIdent dbtype kv.1).isEmpty then ""
               else "(" ++ String.intercalate ","
                 (item.map fun kv => quoteIdent dbtype kv.1) ++ ") ") ++
              "VALUES (" ++ placeholders item.length ++ ")"))
            (item.map Prod.snd)) := by
  by_cases hct : contentType = "application/json"
  · rcases body with _ | j
    · refine ⟨?_, ?_⟩
      · simp [create, hct]
      · intro item _ hb
        exact Option.noConfusion hb
    · cases j with
      | obj item =>
        refine ⟨?_, ?_⟩
        · constructor
          · intro ⟨msg, hmsg⟩
            simp [create, hct, createSingleSql, htable] at hmsg
          · intro h
            rcases h with h | h | h
            · exact absurd hct h
            · exact Option.noConfusion h
            · exact absurd rfl (h item)
        · intro item' hct' hb
          injection hb with hb'
          injection hb' with hb''
          subst hb''
          simp [create, hct, createSingleSql, htable]
      | str s =>
        refine ⟨by simp [create, hct], ?_⟩
        intro item hct' hb
        injection hb with hb'
        exact Json.noConfusion hb'
      | num r =>
        refine ⟨by simp [create, hct], ?_⟩
        intro item hct' hb
        injection hb with hb'
        exact Json.noConfusion hb'
      | bool b =>
        refine ⟨by simp [create, hct], ?_⟩
        intro item hct' hb
        injection hb with hb'
        exact Json.noConfusion hb'
      | null =>
        refine ⟨by simp [create, hct], ?_⟩
        intro item hct' hb
        injection hb with hb'
        exact Json.noConfusion hb'
      | arr elems =>
        refine ⟨by simp [create, hct], ?_⟩
        intro item hct' hb
        injection hb with hb'
        exact Json.noConfusion hb'
  · refine ⟨?_, ?_⟩
    · constructor
      · intro _
        exact Or.inl hct
      · intro _
        exact ⟨"invalid content type", by simp [create, hct]⟩
    · intro item hct' _
      exact absurd hct' hct

/-- Witness for `create_spec`: a valid JSON-object POST to /products
on sqlite3. -/
theorem create_spec_witness :
    ((∃ msg, create "sqlite3" "/" "application/json" "/products"
        (some (.obj [("name", Json.str "Test Product")])) = .badRequest msg) ↔
      (("application/json" : String) ≠ "application/json" ∨
        (some (Json.obj [("name", Json.str "Test Product")]) : Option Json) = none ∨
        ∀ item, (some (Json.obj [("name", Json.str "Test Product")]) : Option Json)
          ≠ some (.obj item))) ∧
    (∀ item, ("application/json" : String) = "application/json" →
      (some (Json.obj [("name", Json.str "Test Product")]) : Option Json)
        = some (.obj item) →
      create "sqlite3" "/" "application/json" "/products"
          (some (.obj [("name", Json.str "Test Product")]))
        = .exec (formatPlaceholders "sqlite3"
            ("INSERT INTO " ++ (parsePath "/" "/products").1 ++ " " ++
              (if (item.map fun kv => quoteIdent "sqlite3" kv.1).isEmpty then ""
               else "(" ++ String.intercalate ","
                 (item.map fun kv => quoteIdent "sqlite3" kv.1) ++ ") ") ++
              "VALUES (" ++ placeholders item.length ++ ")"))
            (item.map Prod.snd)) :=
  create_spec "sqlite3" "/" "application/json" "/products"
    (some (.obj [("name", Json.str "Test Product")])) (by decide)

/-! ## Helper lemmas for the limit/offset claims -/

theorem goAtoi_range (s : String) (n : Int) (h : goAtoi s = some n) :
    -(2 ^ 63) ≤ n ∧ n < 2 ^ 63 := by
  unfold goAtoi at h
  simp only [] at h
  split_ifs at h with h1 h2 h3
  all_goals
    first
    | (injection h with h; subst h; assumption)
    | cases h

theorem goUint64_of_nonneg (s : String) (n : Int) (h : goAtoi s = some n)
    (hn : 0 ≤ n) : goUint64 n = n.toNat := by
  have hr := (goAtoi_range s n h).2
  unfold goUint64
  have : n % (2 ^ 64 : Int) = n := by
    apply Int.emod_eq_of_lt hn
    calc n < 2 ^ 63 := hr
    _ ≤ 2 ^ 64 := by norm_num
  rw [this]

theorem lastParsedControl_none (ctl : String) (args : QueryArgs)
    (h : ∀ vs, (ctl, vs) ∈ args → goAtoi (vs.headD "") = none) :
    lastParsedControl ctl args = none := by
  induction args with
  | nil => rfl
  | cons kv rest ih =>
    obtain ⟨key, vs⟩ := kv
    have hrest := ih fun vs' hmem => h vs' (List.mem_cons_of_mem _ hmem)
    simp only [lastParsedControl, hrest]
    by_cases hkey : key = ctl
    · subst hkey
      rw [h vs (List.mem_cons_self _ _)]
      simp
    · simp [hkey]

theorem lastParsedControl_not_mem (ctl : String) (args : QueryArgs)
    (h : ∀ vs, (ctl, vs) ∉ args) :
    lastParsedControl ctl args = none := by
  apply lastParsedControl_none
  intro vs hmem
  exact absurd hmem (h vs)

theorem lastParsedControl_unique (ctl : String) (args : QueryArgs)
    (vs : List String) (n : Int)
    (hmem : (ctl, vs) ∈ args)
    (huniq : ∀ vs', (ctl, vs') ∈ args → vs' = vs)
    (hparse : goAtoi (vs.headD "") = some n) :
    lastParsedControl ctl args = some (goUint64 n) := by
  induction args with
  | nil => cases hmem
  | cons kv rest ih =>
    obtain ⟨key, vs0⟩ := kv
    by_cases hrest : ∃ vs', (ctl, vs') ∈ rest
    · obtain ⟨vs', hmem'⟩ := hrest
      have hv : vs' = vs := huniq vs' (List.mem_cons_of_mem _ hmem')
      subst hv
      have := ih hmem' fun vs'' hmem'' => huniq vs'' (List.mem_cons_of_mem _ hmem'')
      simp only [lastParsedControl, this]
    · push_neg at hrest
      have hnone := lastParsedControl_not_mem ctl rest hrest
      simp only [lastParsedControl, hnone]
      by_cases hkey : key = ctl
      · subst hkey
        have hv0 : vs0 = vs := huniq vs0 (List.mem_cons_self _ _)
        subst hv0
        rw [hparse]
        simp
      · rcases List.mem_cons.mp hmem with hhead | htail
        · exact absurd (congrArg Prod.fst hhead).symm hkey
        · exact absurd htail (hrest vs)

theorem buildSelectQ_limit (urlPrefix path : String) (args : QueryArgs) :
    (buildSelectQ urlPrefix path args).limit = lastLimit args := by
  unfold buildSelectQ
  rcases parsePath urlPrefix path with ⟨t, i⟩
  by_cases hi : i = ""
  · subst hi
    rw [selectLoop_limit]
    unfold lastLimit
    cases lastParsedControl "__limit__" args <;> simp
  · simp only [hi, ne_eq, not_false_eq_true, ite_true]
    rw [selectLoop_limit]
    unfold lastLimit
    cases lastParsedControl "__limit__" args <;> simp

theorem buildSelectQ_offset (urlPrefix path : String) (args : QueryArgs) :
    (buildSelectQ urlPrefix path args).offset = lastOffset args := by
  unfold buildSelectQ
  rcases parsePath urlPrefix path with ⟨t, i⟩
  by_cases hi : i = ""
  · subst hi
    rw [selectLoop_offset]
    unfold lastOffset
    cases lastParsedControl "__offset__" args <;> simp
  · simp only [hi, ne_eq, not_false_eq_true, ite_true]
    rw [selectLoop_offset]
    unfold lastOffset
    cases lastParsedControl "__offset__" args <;> simp

theorem execSelect_length_le (q : SelectQuery) (rows : List Row) (L : Nat)
    (h : q.limit = some L) : (execSelect q rows).length ≤ L := by
  unfold execSelect
  rw [h]
  cases q.offset <;> simp [List.length_take]

/-! ## Claim C7 — unparsable limit/offset ignored; integer limit bounds -/

/-- Claim C7 (confirmed): the built SELECT carries a LIMIT (OFFSET)
exactly when some `__limit__` (`__offset__`) value parses as an
integer — an unparsable value is silently ignored, leaving the clause
absent and the result unbounded, and the builder never reports an
error (it is total).  When `__limit__` is the integer N ≥ 0, the
statement's semantics return at most N rows. -/
theorem limit_offset_spec (urlPrefix path : String) (args : QueryArgs)
    (rows : List Row) (L : Nat) :
    (buildSelectQ urlPrefix path args).limit = lastLimit args ∧
    (buildSelectQ urlPrefix path args).offset = lastOffset args ∧
    ((∀ vs, ("__limit__", vs) ∈ args → goAtoi (vs.headD "") = none) →
      (buildSelectQ urlPrefix path args).limit = none) ∧
    ((∀ vs, ("__offset__", vs) ∈ args → goAtoi (vs.headD "") = none) →
      (buildSelectQ urlPrefix path args).offset = none) ∧
    ((buildSelectQ urlPrefix path args).limit = some L →
      (execSelect (buildSelectQ urlPrefix path args) rows).length ≤ L) ∧
    (∀ vs N, ("__limit__", vs) ∈ args →
      (∀ vs', ("__limit__", vs') ∈ args → vs' = vs) →
      goAtoi (vs.headD "") = some N → 0 ≤ N →
      (execSelect (buildSelectQ urlPrefix path args) rows).length ≤ N.toNat) := by
  refine ⟨buildSelectQ_limit urlPrefix path args,
    buildSelectQ_offset urlPrefix path args, ?_, ?_, ?_, ?_⟩
  · intro h
    rw [buildSelectQ_limit]
    exact lastParsedControl_none "__limit__" args h
  · intro h
    rw [buildSelectQ_offset]
    exact lastParsedControl_none "__offset__" args h
  · intro h
    exact execSelect_length_le _ rows L h
  · intro vs N hmem huniq hparse hN
    have hlim : (buildSelectQ urlPrefix path args).limit = some (goUint64 N) := by
      rw [buildSelectQ_limit]
      exact lastParsedControl_unique "__limit__" args vs N hmem huniq hparse
    rw [goUint64_of_nonneg (vs.headD "") N hparse hN] at hlim
    exact execSelect_length_le _ rows N.toNat hlim

/-- Witness for `limit_offset_spec`: an unparsable `__limit__` and
`__offset__` leave both clauses absent, and `__limit__=2` bounds a
three-row table to two rows. -/
theorem limit_offset_spec_witness :
    ((buildSelectQ "/" "/t" [("__limit__", ["abc"]), ("__offset__", ["zz"])]).limit
      = none) ∧
    ((buildSelectQ "/" "/t" [("__limit__", ["abc"]), ("__offset__", ["zz"])]).offset
      = none) ∧
    (execSelect (buildSelectQ "/" "/t" [("__limit__", ["2"])])
      [[("id", "1")], [("id", "2")], [("id", "3")]]).length ≤ (2 : Int).toNat := by
  refine ⟨?_, ?_, ?_⟩
  · refine (limit_offset_spec "/" "/t"
      [("__limit__", ["abc"]), ("__offset__", ["zz"])] [] 0).2.2.1 ?_
    intro vs hmem
    simp at hmem
    subst hmem
    decide
  · refine (limit_offset_spec "/" "/t"
      [("__limit__", ["abc"]), ("__offset__", ["zz"])] [] 0).2.2.2.1 ?_
    intro vs hmem
    simp at hmem
    subst hmem
    decide
  · refine (limit_offset_spec "/" "/t" [("__limit__", ["2"])]
      [[("id", "1")], [("id", "2")], [("id", "3")]] 0).2.2.2.2.2
      ["2"] 2 (by simp) ?_ (by decide) (by decide)
    intro vs' hmem
    simp at hmem
    exact hmem

/-! ## Claim C10 — negative limits wrap to uint64 -/

theorem execSelect_no_trunc (q : SelectQuery) (rows : List Row) (L : Nat)
    (h : q.limit = some L) (hlen : rows.length ≤ L) :
    execSelect q rows
      = execSelect { q with limit := none } rows := by
  unfold execSelect
  rw [h]
  simp only
  set f := fun r => q.wheres.all (evalPred r) with hf
  cases ho : q.offset with
  | none =>
    exact List.take_of_length_le (le_trans (List.length_filter_le f rows) hlen)
  | some o =>
    apply List.take_of_length_le
    have h1 : ((rows.filter f).drop o).length ≤ (rows.filter f).length := by
      rw [List.length_drop]
      omega
    exact le_trans h1 (le_trans (List.length_filter_le f rows) hlen)

/-- Claim C10 (confirmed): a `__limit__` value that parses as a
negative integer N is neither rejected nor ignored: the builder
converts it with `uint64(·)`, storing `N mod 2^64` as the LIMIT, so
`__limit__=-1` renders `LIMIT 18446744073709551615`; on any table
with fewer rows than that bound the query is effectively unbounded
rather than an error. -/
theorem negative_limit_spec (urlPrefix path : String) (args : QueryArgs)
    (rows : List Row) (vs : List String) (N : Int)
    (hmem : ("__limit__", vs) ∈ args)
    (huniq : ∀ vs', ("__limit__", vs') ∈ args → vs' = vs)
    (hparse : goAtoi (vs.headD "") = some N) (hN : N < 0) :
    (buildSelectQ urlPrefix path args).limit
      = some ((N % (2 ^ 64 : Int)).toNat) ∧
    (buildSelectQuery "sqlite3" "/" "/t" [("__limit__", ["-1"])]).1
      = "SELECT * FROM t LIMIT 18446744073709551615" ∧
    (rows.length ≤ (N % (2 ^ 64 : Int)).toNat →
      execSelect (buildSelectQ urlPrefix path args) rows
        = execSelect { buildSelectQ urlPrefix path args with limit := none }
            rows) := by
  have hlim : (buildSelectQ urlPrefix path args).limit
      = some ((N % (2 ^ 64 : Int)).toNat) := by
    rw [buildSelectQ_limit]
    exact lastParsedControl_unique "__limit__" args vs N hmem huniq hparse
  refine ⟨hlim, rfl, ?_⟩
  intro hlen
  exact execSelect_no_trunc _ rows _ hlim hlen

/-- Witness for `negative_limit_spec` at `__limit__=-1` on a one-row
table. -/
theorem negative_limit_spec_witness :
    (buildSelectQ "/" "/t" [("__limit__", ["-1"])]).limit
      = some (((-1 : Int) % (2 ^ 64 : Int)).toNat) ∧
    (buildSelectQuery "sqlite3" "/" "/t" [("__limit__", ["-1"])]).1
      = "SELECT * FROM t LIMIT 18446744073709551615" ∧
    ([[("id", "1")]].length ≤ ((-1 : Int) % (2 ^ 64 : Int)).toNat →
      execSelect (buildSelectQ "/" "/t" [("__limit__", ["-1"])]) [[("id", "1")]]
        = execSelect
            { buildSelectQ "/" "/t" [("__limit__", ["-1"])] with limit := none }
            [[("id", "1")]]) := by
  refine negative_limit_spec "/" "/t" [("__limit__", ["-1"])] [[("id", "1")]]
    ["-1"] (-1) (by simp) ?_ (by decide) (by decide)
  intro vs' hmem
  simp at hmem
  exact hmem

/-! ## Claim C8 — empty raw query -/

/-- Claim C8 (confirmed): whenever an accepted content type (JSON,
text/plain, or the multipart/url-encoded form path) yields an SQL
string that trims to the empty string, the raw handler answers
BadRequest "empty query" and executes nothing. -/
theorem raw_empty_query_spec (r : RawRequest) (s : String)
    (hex : rawExtract r = .ok s) (hempty : goTrimSpace s = "") :
    raw r = .badRequest "empty query" ∧
    (∀ q, raw r ≠ .execRead q) ∧ (∀ q, raw r ≠ .execWrite q) := by
  have hraw : raw r = .badRequest "empty query" := by
    unfold raw
    rw [hex]
    simp [hempty]
  refine ⟨hraw, ?_, ?_⟩
  · intro q hq
    rw [hraw] at hq
    cases hq
  · intro q hq
    rw [hraw] at hq
    cases hq

/-- Witness for `raw_empty_query_spec`: a text/plain raw POST whose
body is only white space. -/
theorem raw_empty_query_spec_witness :
    raw ⟨"text/plain", "   ", none, ""⟩ = .badRequest "empty query" ∧
    (∀ q, raw ⟨"text/plain", "   ", none, ""⟩ ≠ .execRead q) ∧
    (∀ q, raw ⟨"text/plain", "   ", none, ""⟩ ≠ .execWrite q) :=
  raw_empty_query_spec ⟨"text/plain", "   ", none, ""⟩ "   " rfl (by decide)

/-! ## Claim C9 — minimal quoting in delimited output -/

theorem digitChar_ne_quote (n : Nat) :
    Nat.digitChar n ≠ '"' ∧ Nat.digitChar n ≠ '\\' := by
  rcases Nat.lt_or_ge n 16 with h | h
  · interval_cases n <;> exact ⟨by decide, by decide⟩
  · have e : Nat.digitChar n = '*' := by
      have h0 : n ≠ 0 := by omega
      have h1 : n ≠ 1 := by omega
      have h2 : n ≠ 2 := by omega
      have h3 : n ≠ 3 := by omega
      have h4 : n ≠ 4 := by omega
      have h5 : n ≠ 5 := by omega
      have h6 : n ≠ 6 := by omega
      have h7 : n ≠ 7 := by omega
      have h8 : n ≠ 8 := by omega
      have h9 : n ≠ 9 := by omega
      have ha : n ≠ 0xa := by omega
      have hb : n ≠ 0xb := by omega
      have hc : n ≠ 0xc := by omega
      have hd : n ≠ 0xd := by omega
      have he : n ≠ 0xe := by omega
      have hf : n ≠ 0xf := by omega
      simp [Nat.digitChar, h0, h1, h2, h3, h4, h5, h6, h7, h8, h9, ha, hb,
        hc, hd, he, hf]
    rw [e]
    exact ⟨by decide, by decide⟩

theorem noUnescapedQuotes_escape_pair (x : Char) (rest : List Char) :
    noUnescapedQuotes ('\\' :: x :: rest) = noUnescapedQuotes rest := by
  simp [noUnescapedQuotes, noUnescapedQuotesAux]

theorem noUnescapedQuotes_cons_of_ne (c : Char) (rest : List Char)
    (h1 : c ≠ '\\') (h2 : c ≠ '"') :
    noUnescapedQuotes (c :: rest) = noUnescapedQuotes rest := by
  simp [noUnescapedQuotes, noUnescapedQuotesAux, h1, h2]

set_option maxHeartbeats 1600000 in
theorem noUnescapedQuotes_goQuoteChar (c : Char) (rest : List Char) :
    noUnescapedQuotes (goQuoteChar c ++ rest) = noUnescapedQuotes rest := by
  unfold goQuoteChar
  split_ifs with h1 h2 h3 h4 h5 h6 h7 h8 h9 h10
  · exact noUnescapedQuotes_escape_pair _ rest
  · exact noUnescapedQuotes_escape_pair _ rest
  · exact noUnescapedQuotes_escape_pair _ rest
  · exact noUnescapedQuotes_escape_pair _ rest
  · exact noUnescapedQuotes_escape_pair _ rest
  · exact noUnescapedQuotes_escape_pair _ rest
  · exact noUnescapedQuotes_escape_pair _ rest
  · exact noUnescapedQuotes_escape_pair _ rest
  · exact noUnescapedQuotes_escape_pair _ rest
  · simp only [List.cons_append, List.nil_append]
    rw [noUnescapedQuotes_escape_pair,
      noUnescapedQuotes_cons_of_ne _ _ (digitChar_ne_quote _).2
        (digitChar_ne_quote _).1]
    exact noUnescapedQuotes_cons_of_ne _ _ (digitChar_ne_quote _).2
      (digitChar_ne_quote _).1
  · exact noUnescapedQuotes_cons_of_ne c rest h2 h1

theorem noUnescapedQuotes_flatMap (cs : List Char) :
    noUnescapedQuotes (cs.flatMap goQuoteChar) = true := by
  induction cs with
  | nil => rfl
  | cons c rest ih =>
    rw [List.flatMap_cons, noUnescapedQuotes_goQuoteChar]
    exact ih

/-- Claim C9, counterexample: the claim states that every field
containing the active delimiter is minimally quoted.  In TSV mode the
active delimiter is a tab, but `quoteMinimal` tests only for comma,
double quote and newline, so a field containing a tab is emitted
unquoted. -/
theorem quoteMinimal_tsv_delimiter_unquoted :
    csvSeparator "text/tsv" = "\t" ∧
    quoteMinimal "a\tb" = "a\tb" ∧
    ("a\tb".data.contains '\t') = true ∧
    renderCsvRow (csvSeparator "text/tsv") ["x"] [("x", Json.str "a\tb")]
      = "a\tb" := by
  exact ⟨rfl, rfl, rfl, rfl⟩

/-- Claim C9 (amended): a serialized field is minimally quoted exactly
when it contains a comma, a double quote, or a newline — a fixed set
independent of the active delimiter (so in CSV mode a field containing
the delimiter is quoted, as the scenario requires, while in TSV mode a
tab-containing field stays unquoted); all other fields are emitted
unchanged.  Quoting wraps the field in double quotes and escapes every
interior quote with a backslash. -/
theorem quoteMinimal_spec (s sep : String) :
    (goContainsAny s ",\"\n" = true → quoteMinimal s = goQuote s) ∧
    (goContainsAny s ",\"\n" = false → quoteMinimal s = s) ∧
    (goQuote s).data.head? = some '"' ∧
    (goQuote s).data.getLast? = some '"' ∧
    noUnescapedQuotes (s.data.flatMap goQuoteChar) = true ∧
    renderCsvRow sep ["x"] [("x", Json.str s)] = quoteMinimal s ∧
    renderCsvRow (csvSeparator "text/csv") ["x"] [("x", Json.str "a,b")]
      = "\"a,b\"" ∧
    quoteMinimal "a\"b" = "\"a\\\"b\"" := by
  refine ⟨?_, ?_, rfl, ?_, noUnescapedQuotes_flatMap s.data, rfl, rfl, rfl⟩
  · intro h
    simp [quoteMinimal, h]
  · intro h
    simp [quoteMinimal, h]
  · show ('"' :: (s.data.flatMap goQuoteChar ++ ['"'])).getLast? = some '"'
    rw [← List.cons_append]
    exact List.getLast?_concat _

/-- Witness for `quoteMinimal_spec` on a comma-containing value. -/
theorem quoteMinimal_spec_witness :
    (goContainsAny "a,b" ",\"\n" = true → quoteMinimal "a,b" = goQuote "a,b") ∧
    (goContainsAny "a,b" ",\"\n" = false → quoteMinimal "a,b" = "a,b") ∧
    (goQuote "a,b").data.head? = some '"' ∧
    (goQuote "a,b").data.getLast? = some '"' ∧
    noUnescapedQuotes ("a,b".data.flatMap goQuoteChar) = true ∧
    renderCsvRow "," ["x"] [("x", Json.str "a,b")] = quoteMinimal "a,b" ∧
    renderCsvRow (csvSeparator "text/csv") ["x"] [("x", Json.str "a,b")]
      = "\"a,b\"" ∧
    quoteMinimal "a\"b" = "\"a\\\"b\"" :=
  quoteMinimal_spec "a,b" ","

end Sqld
